import Mathlib

/-
A shallow embedding of src/Campaign-ER.py: a Flask service that, for each
influencer linked to a campaign record, queries the YouTube Data API for the
channel's recent uploads, averages engagement statistics over long-form
videos and writes the averages back to the table store.

External effects (HTTP requests to Airtable and YouTube) are modelled by
explicit world records carrying each upstream call's outcome
(an `Except String _`, where `.error e` models the call raising a Python
exception with message `e`), and the embedded handler returns the list of
upstream calls it issued alongside its response.  CPython's
arbitrary-precision integers are Lean's `Int`/`Nat`; its binary64 floats are
modelled exactly as rationals rounded to 53 significant bits (`roundB64`
below).
-/

/-! ### `is_longform` (src/Campaign-ER.py lines 99-104) and
`isodate.parse_duration`

`is_longform` calls `isodate.parse_duration` on the duration text and
compares `duration.total_seconds() >= 180`, returning `False` whenever
anything in the `try` block raises.

`isodate.parse_duration` matches the string against the period regex
`^[+-]?P(?!\x7Bword boundary\x7D)(digits[,.digits]?Y)?(…M)?(…W)?(…D)?`
`(T(…H)?(…M)?(…S)?)?$` and builds a `datetime.timedelta` from the matched
groups when both the years and the months group are zero; otherwise it
builds an `isodate.Duration`, an object that has no `total_seconds` method,
so `is_longform`'s attribute access raises and the `except` returns `False`
— exactly as if parsing had failed.  When the regex does not match, isodate
falls back to reading `P<ISO datetime>` (e.g. `P0003-06-04T12:30:05`) via
`parse_datetime`; a datetime's year and month are always at least 1, so that
branch always yields a `Duration` (or raises), never a `total_seconds`;
the embedding therefore folds it into the `none` case.

The embedding keeps every matched numeric group as an exact decimal
(numerator over a power of ten) and rounds the total to integer
microseconds half-to-even, which is where `timedelta` stores its value;
`total_seconds() >= 180` on a `timedelta` of `u` microseconds holds exactly
when `180 * 10^6 ≤ u` (180.0 is exactly representable and the float
quotient `u / 10^6` never crosses it).  `timedelta` raises `OverflowError`
when its normalized day count leaves `±999999999`, which the embedding
reproduces as a failed parse; the per-argument double rounding CPython
performs on fractional components is idealised to a single exact decimal
rounding.  Unicode digits and unicode whitespace accepted by Python in
other contexts do not arise here: the regex itself allows ASCII `[0-9]`
only.
-/

/-- A decimal literal `num / 10 ^ exp`, as matched by the regex group
`[0-9]+([,.][0-9]+)?` (so `"12.34"` is `⟨1234, 2⟩`). -/
structure DecNum where
  num : ℕ
  exp : ℕ
deriving DecidableEq

/-- Digit run to its value, most significant first. -/
def digitsVal (l : List Char) : ℕ :=
  l.foldl (fun a c => 10 * a + (c.toNat - 48)) 0

/-- One `[0-9]+([,.][0-9]+)?` group: the longest digit run, then optionally a
comma or dot followed by a nonempty digit run (if no digit follows the
separator the regex backtracks and leaves the separator unconsumed). -/
def parseDecimal (l : List Char) : Option (DecNum × List Char) :=
  let ds := l.takeWhile Char.isDigit
  if ds.isEmpty then none
  else
    match l.drop ds.length with
    | c :: r2 =>
      if c = ',' ∨ c = '.' then
        let fs := r2.takeWhile Char.isDigit
        if fs.isEmpty then some (⟨digitsVal ds, 0⟩, c :: r2)
        else some (⟨digitsVal (ds ++ fs), fs.length⟩, r2.drop fs.length)
      else some (⟨digitsVal ds, 0⟩, c :: r2)
    | [] => some (⟨digitsVal ds, 0⟩, [])

/-- One optional period component `([0-9]+([,.][0-9]+)?<tag>)?`: when the
number or the tag letter does not match, the group is absent and isodate
reads it as `0` with nothing consumed. -/
def parseComponent (tag : Char) (l : List Char) : DecNum × List Char :=
  match parseDecimal l with
  | some (v, c :: rest) => if c = tag then (v, rest) else (⟨0, 0⟩, l)
  | _ => (⟨0, 0⟩, l)

/-- The matched groups of the period regex. -/
structure IsoPeriod where
  neg : Bool
  years : DecNum
  months : DecNum
  weeks : DecNum
  days : DecNum
  hours : DecNum
  minutes : DecNum
  seconds : DecNum
deriving DecidableEq

/-- `ISO8601_PERIOD_REGEX.match`: optional sign, `P` that must be followed by
a word character (the `(?!\b)` lookahead), the date components in order
`Y M W D`, optionally `T` and the time components `H M S`, then the end of
the string (`$` also matches just before one final newline). -/
def matchPeriod (l : List Char) : Option IsoPeriod :=
  let signed : Bool × List Char :=
    match l with
    | '-' :: r => (true, r)
    | '+' :: r => (false, r)
    | _ => (false, l)
  match signed.2 with
  | 'P' :: r =>
    match r with
    | [] => none
    | c :: _ =>
      if c.isAlphanum ∨ c = '_' then
        let y := parseComponent 'Y' r
        let mo := parseComponent 'M' y.2
        let w := parseComponent 'W' mo.2
        let d := parseComponent 'D' w.2
        match d.2 with
        | 'T' :: r5 =>
          let h := parseComponent 'H' r5
          let mi := parseComponent 'M' h.2
          let s := parseComponent 'S' mi.2
          if s.2 = [] ∨ s.2 = ['\n'] then
            some ⟨signed.1, y.1, mo.1, w.1, d.1, h.1, mi.1, s.1⟩
          else none
        | rest =>
          if rest = [] ∨ rest = ['\n'] then
            some ⟨signed.1, y.1, mo.1, w.1, d.1, ⟨0, 0⟩, ⟨0, 0⟩, ⟨0, 0⟩⟩
          else none
      else none
  | _ => none

/-- `acc + mult * d`, both sides exact decimals held as
(numerator, power-of-ten exponent). -/
def addScaled (acc : ℕ × ℕ) (mult : ℕ) (d : DecNum) : ℕ × ℕ :=
  let e := max acc.2 d.exp
  (acc.1 * 10 ^ (e - acc.2) + mult * d.num * 10 ^ (e - d.exp), e)

/-- Round `n / 10 ^ e` half to even to an integer: `timedelta`'s rounding of
a fractional total to whole microseconds. -/
def rheNatScaled (n e : ℕ) : ℕ :=
  let p := 10 ^ e
  let f := n / p
  let r := n % p
  if 2 * r < p then f
  else if p < 2 * r then f + 1
  else if f % 2 = 0 then f else f + 1

/-- `isodate.parse_duration(s).total_seconds()` in integer microseconds:
`none` when the regex does not match, when the result is an
`isodate.Duration` (nonzero years or months group: no `total_seconds`
attribute, the access raises), or when `timedelta` construction overflows
(normalized day count outside `±999999999`). -/
def parse_duration_microseconds (s : String) : Option ℤ :=
  match matchPeriod s.data with
  | none => none
  | some p =>
    if p.years.num ≠ 0 ∨ p.months.num ≠ 0 then none
    else
      let t :=
        addScaled (addScaled (addScaled (addScaled (addScaled (0, 0)
          604800000000 p.weeks) 86400000000 p.days) 3600000000 p.hours)
          60000000 p.minutes) 1000000 p.seconds
      let usec : ℤ := (rheNatScaled t.1 t.2 : ℤ)
      if p.neg then
        if 86399999913600000000 < usec then none else some (-usec)
      else
        if 86400000000000000000 ≤ usec then none else some usec

/-- src/Campaign-ER.py lines 99-104: parse the ISO duration, compare the
total against 180 seconds, and treat any exception as short-form. -/
def is_longform (iso_duration : String) : Bool :=
  match parse_duration_microseconds iso_duration with
  | some usec => decide (180000000 ≤ usec)
  | none => false


/-! ### `get_video_stats_batch` (src/Campaign-ER.py lines 84-96)

`for i in range(0, len(video_ids), 50): batch = video_ids[i:i+50]; …
stats.extend(resp.json().get('items', []))`.  The upstream request is a
parameter `fetch`; the result also returns the list of id-batches requested,
one entry per upstream call in the order they were issued. -/

def get_video_stats_batch (fetch : List String → List α) (video_ids : List String) :
    List α × List (List String) :=
  if h : video_ids = [] then ([], [])
  else
    let r := get_video_stats_batch fetch (video_ids.drop 50)
    (fetch (video_ids.take 50) ++ r.1, video_ids.take 50 :: r.2)
termination_by video_ids.length
decreasing_by
  simp only [List.length_drop]
  have : video_ids.length ≠ 0 := fun hl => h (List.length_eq_zero.mp hl)
  omega

/-! ### `get_recent_video_ids` (src/Campaign-ER.py lines 50-81)

The paginated playlist-items loop.  The upstream's successive responses are
modelled as the list of pages the loop would fetch in order: fetching with
no token yields the head, and each page's `nextPageToken`, when present,
fetches the next element.  Publish timestamps are abstracted to integers
ordered as the parsed datetimes are (`dateutil.parser.parse` on well-formed
items); the loop appends `videoId` for every item with
`published_at >= cutoff_date`, breaks when a page contributed none, and
otherwise breaks when the page carries no `nextPageToken`. -/

structure PlaylistItem where
  videoPublishedAt : ℤ
  videoId : String
deriving DecidableEq

structure PlaylistPage where
  items : List PlaylistItem
  hasNextPageToken : Bool
deriving DecidableEq

/-- The ids a single page contributes: its items at or after the cutoff, in
item order. -/
def qualifyingIds (cutoff : ℤ) (p : PlaylistPage) : List String :=
  (p.items.filter fun it => cutoff ≤ it.videoPublishedAt).map PlaylistItem.videoId

def get_recent_video_ids (cutoff : ℤ) : List PlaylistPage → List String
  | [] => []
  | p :: rest =>
    let recent := qualifyingIds cutoff p
    if recent.isEmpty then []
    else if p.hasNextPageToken then recent ++ get_recent_video_ids cutoff rest
    else recent

/-! ### CPython binary64 arithmetic

`int(sum(xs) / len(xs))` divides two Python ints with `/`, which rounds the
exact quotient to the nearest binary64 float (ties to even), then truncates
toward zero.  The embedding rounds the exact rational quotient to 53
significant bits with an unbounded exponent range: exact for every quotient
a finite double can carry (overflow at 2^1024 and subnormal loss below
2^-1022 are out of reach for quotients of realistic counts, and truncation
of a subnormal is 0 either way). -/

/-- `⌊log₂ (a / b)⌋` for positive naturals. -/
def ratLog2 (a b : ℕ) : ℤ :=
  if b ≤ a then (Nat.log 2 (a / b) : ℤ)
  else -((Nat.log 2 ((b - 1) / a) : ℤ) + 1)

/-- Round a rational half to even to an integer. -/
def roundHalfEven (q : ℚ) : ℤ :=
  let f := ⌊q⌋
  if q - f < 1 / 2 then f
  else if (1 : ℚ) / 2 < q - f then f + 1
  else if f % 2 = 0 then f else f + 1

/-- Round a positive rational to 53 significant bits, ties to even: scale by
`2 ^ (52 - ⌊log₂ q⌋)` into `[2^52, 2^53)`, round half to even, scale back. -/
def roundB64pos (q : ℚ) : ℚ :=
  (roundHalfEven (q * 2 ^ (52 - ratLog2 q.num.toNat q.den)) : ℚ) *
    2 ^ (ratLog2 q.num.toNat q.den - 52)

/-- Binary64 rounding of an exact rational value (unbounded exponent). -/
def roundB64 (q : ℚ) : ℚ :=
  if 0 < q then roundB64pos q
  else if q < 0 then -roundB64pos (-q)
  else 0

/-- Python `int()` applied to a (here already rounded) float value:
truncation toward zero. -/
def pyTrunc (q : ℚ) : ℤ :=
  if 0 ≤ q then ⌊q⌋ else -⌊-q⌋

/-- `int(sum(xs) / len(xs))` on a list of Python ints (lines 178-180). -/
def pyAvg (xs : List ℤ) : ℤ :=
  pyTrunc (roundB64 ((xs.sum : ℚ) / (xs.length : ℚ)))

/-! ### Python `int(str)` -/

/-- The whitespace `str.strip`-style trimming removes around an int literal
(ASCII; the unicode spaces Python also strips cannot occur in the API's
decimal count strings). -/
def isPySpace (c : Char) : Bool :=
  c = ' ' ∨ c = '\t' ∨ c = '\n' ∨ c = '\r' ∨ c = '\x0b' ∨ c = '\x0c'

/-- digit (underscore? digit)*: the digit body of a Python int literal,
where single underscores may separate digits. `afterDigit` records whether
the previous character was a digit. -/
def validDigitsU (afterDigit : Bool) : List Char → Bool
  | [] => afterDigit
  | c :: rest =>
    if c.isDigit then validDigitsU true rest
    else if c = '_' ∧ afterDigit then validDigitsU false rest
    else false

/-- `int(s)` for a decimal string: strip whitespace, optional sign, digits
with optional single separating underscores; `none` models `ValueError`. -/
def pyIntOfString (s : String) : Option ℤ :=
  let l := ((s.data.dropWhile isPySpace).reverse.dropWhile isPySpace).reverse
  let signedBody : Bool × List Char :=
    match l with
    | '-' :: r => (true, r)
    | '+' :: r => (false, r)
    | _ => (false, l)
  if validDigitsU false signedBody.2 then
    let v : ℤ := (digitsVal (signedBody.2.filter fun c => c ≠ '_') : ℤ)
    some (if signedBody.1 then -v else v)
  else none

/-! ### The per-video metric collection loop (src/Campaign-ER.py lines
162-172)

Each YouTube video item is reduced to the four fields the loop reads:
`contentDetails.duration` (`none` models a missing key, whose lookup raises
`KeyError` inside the `try`) and the three `statistics` counts (`none`
models an absent key — `stats.get(key, 0)` then yields the int 0 — and a
missing `statistics` object is all three absent). -/

structure VideoItem where
  duration : Option String
  viewCount : Option String
  likeCount : Option String
  commentCount : Option String
deriving DecidableEq

/-- `int(stats.get(key, 0))`: 0 when absent, else the parsed string (`none`
models `ValueError`). -/
def statCount : Option String → Option ℤ
  | none => some 0
  | some s => pyIntOfString s

/-- The three metric lists the loop accumulates. -/
structure Metrics where
  views : List ℤ
  likes : List ℤ
  comments : List ℤ
deriving DecidableEq

/-- One iteration of the loop: inside a `try`, read the duration (KeyError
skips the video), test `is_longform`, then append the parsed view, like and
comment counts in that order — a `ValueError` mid-way leaves the appends
already made in place and continues with the next video. -/
def collectVideo (acc : Metrics) (v : VideoItem) : Metrics :=
  match v.duration with
  | none => acc
  | some d =>
    if is_longform d then
      match statCount v.viewCount with
      | none => acc
      | some vc =>
        let acc1 : Metrics := ⟨acc.views ++ [vc], acc.likes, acc.comments⟩
        match statCount v.likeCount with
        | none => acc1
        | some lc =>
          let acc2 : Metrics := ⟨acc1.views, acc1.likes ++ [lc], acc1.comments⟩
          match statCount v.commentCount with
          | none => acc2
          | some cc => ⟨acc2.views, acc2.likes, acc2.comments ++ [cc]⟩
    else acc

def collectMetrics (videos : List VideoItem) : Metrics :=
  videos.foldl collectVideo ⟨[], [], []⟩

/-! ### The request handler `update_engagement_for_campaign`
(src/Campaign-ER.py lines 114-196)

Worlds carry the outcome of each upstream interaction.  Airtable records
are reduced to the single field the handler reads from them (`Creator` on
the campaign, `YouTube Channel ID` on the influencer); `.error e` models
the underlying `requests` call (or `raise_for_status`) raising. -/

/-- The report statuses the handler emits. -/
inductive ReportStatus where
  | success
  | skipped
  | failed
deriving DecidableEq

/-- One element of the `update_results` list. -/
structure ReportEntry where
  influencerId : String
  status : ReportStatus
  reason : Option String
deriving DecidableEq

/-- The upstream calls the handler can issue, in issue order.  The paginated
playlist listing and the batched details fetch are each recorded as one
event for the endpoint touched. -/
inductive ApiCall where
  | fetchCampaign (table recordId : String)
  | fetchInfluencer (recordId : String)
  | resolveUploadsPlaylist (channelId : String)
  | listPlaylistItems
  | fetchVideoDetails
  | updateRecord (recordId : String) (avgViews avgLikes avgComments : ℤ)
deriving DecidableEq

deriving instance DecidableEq for Except

/-- Everything the world answers for one influencer:
`record` is the influencer fetch (payload: the `YouTube Channel ID` field,
`some ""` a present-but-empty one), `uploadsPlaylist` the channels lookup
(`.ok none`: empty `items`, so no playlist), `pages` the playlist-items
responses in fetch order, `videoStats` the concatenated batch items, and
`updateResult` the PATCH. -/
structure InfluencerWorld where
  record : Except String (Option String)
  uploadsPlaylist : Except String (Option String)
  pages : Except String (List PlaylistPage)
  videoStats : Except String (List VideoItem)
  updateResult : Except String Unit
deriving DecidableEq

/-- Lines 138-191, one influencer: the `try`-guarded record fetch, the
`if not channel_id` guard, the unguarded YouTube steps (their exceptions
escape as `.error`), the silently-skipping stats loop, the
`if not longform_views` guard, the three averages (dividing by a length that
a mid-video parse failure can have left at zero raises
`ZeroDivisionError`, unguarded) and the `try`-guarded update. -/
def processInfluencer (w : InfluencerWorld) (cutoff : ℤ) (influencerId : String) :
    Except String ReportEntry × List ApiCall :=
  let t0 := [ApiCall.fetchInfluencer influencerId]
  match w.record with
  | .error e =>
    (.ok ⟨influencerId, .failed, some ("Failed to fetch influencer record: " ++ e)⟩, t0)
  | .ok channelId =>
    if channelId = none ∨ channelId = some "" then
      (.ok ⟨influencerId, .skipped, some "No YouTube Channel ID"⟩, t0)
    else
      let t1 := t0 ++ [ApiCall.resolveUploadsPlaylist (channelId.getD "")]
      match w.uploadsPlaylist with
      | .error e => (.error e, t1)
      | .ok none => (.ok ⟨influencerId, .skipped, some "No uploads playlist"⟩, t1)
      | .ok (some _) =>
        let t2 := t1 ++ [ApiCall.listPlaylistItems]
        match w.pages with
        | .error e => (.error e, t2)
        | .ok pages =>
          let videoIds := get_recent_video_ids cutoff pages
          if videoIds.isEmpty then
            (.ok ⟨influencerId, .skipped, some "No recent videos"⟩, t2)
          else
            let t3 := t2 ++ [ApiCall.fetchVideoDetails]
            match w.videoStats with
            | .error e => (.error e, t3)
            | .ok videos =>
              let m := collectMetrics videos
              if m.views.isEmpty then
                (.ok ⟨influencerId, .skipped, some "No longform videos found"⟩, t3)
              else
                let avgViews := pyAvg m.views
                if m.likes.isEmpty then (.error "ZeroDivisionError: division by zero", t3)
                else
                  let avgLikes := pyAvg m.likes
                  if m.comments.isEmpty then
                    (.error "ZeroDivisionError: division by zero", t3)
                  else
                    let avgComments := pyAvg m.comments
                    let t4 := t3 ++
                      [ApiCall.updateRecord influencerId avgViews avgLikes avgComments]
                    match w.updateResult with
                    | .error e =>
                      (.ok ⟨influencerId, .failed,
                        some ("Failed to update Airtable: " ++ e)⟩, t4)
                    | .ok _ => (.ok ⟨influencerId, .success, none⟩, t4)

/-- The world one request runs against: the campaign fetch (payload:
`fields.get('Creator', [])`, the linked influencer ids), each influencer's
world, and the `CUTOFF_DATE` the handler computes from the clock. -/
structure CampaignWorld where
  campaignRecord : Except String (List String)
  influencers : String → InfluencerWorld
  cutoff : ℤ

/-- The `for influencer_id in linked_influencer_ids` loop: sequential, each
iteration appending one entry, an escaping exception aborting the rest. -/
def runInfluencers (w : CampaignWorld) : List String → Except String (List ReportEntry) × List ApiCall
  | [] => (.ok [], [])
  | influencerId :: rest =>
    match processInfluencer (w.influencers influencerId) w.cutoff influencerId with
    | (.error e, t) => (.error e, t)
    | (.ok entry, t) =>
      match runInfluencers w rest with
      | (.error e, t2) => (.error e, t ++ t2)
      | (.ok entries, t2) => (.ok (entry :: entries), t ++ t2)

/-- The request body as the handler reads it: whether `request.get_json()`
produced a truthy value, and the two keys consulted. -/
structure ReqBody where
  present : Bool
  campaignRecordId : Option String
  campaignTableName : Option String

/-- The handler's possible responses.  `unhandledException` is an exception
escaping the route function, which Flask turns into a generic 500 — the
handler itself returns no body then. -/
inductive HttpResponse where
  | badRequest (error : String)
  | serverError (error : String)
  | noInfluencers (message : String)
  | report (campaignRecordId : String) (results : List ReportEntry)
  | unhandledException (e : String)
deriving DecidableEq

/-- Lines 114-196: the 400 guard, the 500-guarded campaign fetch, the
empty-`Creator` 200, then the influencer loop and the 200 report. -/
def update_engagement_for_campaign (req : ReqBody) (w : CampaignWorld) :
    HttpResponse × List ApiCall :=
  if req.present = false ∨ req.campaignRecordId = none then
    (.badRequest "Missing 'campaignRecordId' in request body", [])
  else
    let cid := req.campaignRecordId.getD ""
    let table := req.campaignTableName.getD "Campaigns"
    let t0 := [ApiCall.fetchCampaign table cid]
    match w.campaignRecord with
    | .error e => (.serverError ("Failed to fetch campaign record: " ++ e), t0)
    | .ok linked =>
      if linked.isEmpty then
        (.noInfluencers "No linked influencers found for this campaign.", t0)
      else
        match runInfluencers w linked with
        | (.error e, t) => (.unhandledException e, t0 ++ t)
        | (.ok results, t) => (.report cid results, t0 ++ t)

/-- A sufficient condition for one influencer's processing not to raise: its
unguarded YouTube calls answer without an exception and the collected
metrics do not trip the unguarded zero divisions (likes or comments empty
while views is not). -/
def influencerSafe (w : InfluencerWorld) : Prop :=
  (∃ r, w.uploadsPlaylist = .ok r) ∧ (∃ pg, w.pages = .ok pg) ∧
  (∃ vs, w.videoStats = .ok vs ∧
    ((collectMetrics vs).views = [] ∨
      ((collectMetrics vs).likes ≠ [] ∧ (collectMetrics vs).comments ≠ [])))

/-! ### Concrete requests and worlds used by individual theorems -/

/-- A well-formed request for campaign `campaignA`. -/
def reqC1 : ReqBody := ⟨true, some "campaignA", none⟩

/-- Influencer whose channels lookup (playlist resolve) raises. -/
def iwC1A : InfluencerWorld :=
  ⟨.ok (some "UCchannelA"), .error "HTTPError 500 Server Error", .ok [], .ok [], .ok ()⟩

/-- Influencer that would report `skipped` (no channel id). -/
def iwC1B : InfluencerWorld := ⟨.ok none, .ok none, .ok [], .ok [], .ok ()⟩

/-- Campaign with two influencers; the first one's playlist resolve raises. -/
def cwC1 : CampaignWorld :=
  ⟨.ok ["infA", "infB"], fun i => if i = "infA" then iwC1A else iwC1B, 0⟩

/-- A well-formed request for campaign `campaignB`. -/
def reqC2 : ReqBody := ⟨true, some "campaignB", none⟩

/-- Influencer whose playlist-items listing raises mid-pagination. -/
def iwC2 : InfluencerWorld :=
  ⟨.ok (some "UCchannelB"), .ok (some "UUuploadsB"), .error "ConnectionError", .ok [], .ok ()⟩

/-- Campaign with one influencer whose video listing raises. -/
def cwC2 : CampaignWorld := ⟨.ok ["infC"], fun _ => iwC2, 0⟩

/-- A well-formed request for campaign `campaignC`. -/
def reqC2all : ReqBody := ⟨true, some "campaignC", none⟩

/-- Influencer whose record fetch raises. -/
def iwFailFetch : InfluencerWorld :=
  ⟨.error "HTTP 404", .ok none, .ok [], .ok [], .ok ()⟩

/-- Influencer whose record has no channel id. -/
def iwNoChannel : InfluencerWorld := ⟨.ok none, .ok none, .ok [], .ok [], .ok ()⟩

/-- Campaign where every influencer fails or is skipped. -/
def cwC2all : CampaignWorld :=
  ⟨.ok ["iF", "iS"], fun i => if i = "iF" then iwFailFetch else iwNoChannel, 0⟩

/-- A well-formed request for campaign `campaignE`. -/
def reqC8 : ReqBody := ⟨true, some "campaignE", none⟩

/-- Campaign record with an empty `Creator` list. -/
def cwC8 : CampaignWorld := ⟨.ok [], fun _ => iwNoChannel, 0⟩

/-- A well-formed request for campaign `campaignD`. -/
def reqC9 : ReqBody := ⟨true, some "campaignD", none⟩

/-- Campaign with one influencer that reports `skipped`. -/
def cwC9 : CampaignWorld := ⟨.ok ["inf9"], fun _ => iwNoChannel, 0⟩

/-! ## Theorems -/

example : is_longform "PT3M0S" = true := by decide
example : is_longform "PT2M59S" = false := by decide
example : is_longform "not-a-duration" = false := by decide
example : is_longform "P1DT2H" = true := by decide
example : is_longform "P1Y" = false := by decide
example : is_longform "-PT5M" = false := by decide
example : is_longform "P4W" = true := by decide
example : is_longform "PT2M59.5S" = false := by decide
example : is_longform "PT" = false := by decide
example : is_longform "P" = false := by decide
example : parse_duration_microseconds "PT3M" = some 180000000 := by decide
example : parse_duration_microseconds "PT0.0000004S" = some 0 := by decide
example : parse_duration_microseconds "PT0.0000015S" = some 2 := by decide

/-- C5: `is_longform` parses its ISO-8601 duration argument and returns true
iff the parsed total (here in microseconds, where `timedelta` keeps it:
`total_seconds() >= 180` holds exactly when the total is at least
`180 * 10^6` microseconds) reaches 180 seconds, and returns false — it is a
total function, never raising — when parsing fails; in particular
`PT3M0S` is long-form, `PT2M59S` is not, and `not-a-duration` is not. -/
theorem C5_is_longform_spec :
    (∀ d : String, is_longform d = true ↔
      ∃ usec, parse_duration_microseconds d = some usec ∧ 180 * 1000000 ≤ usec)
    ∧ is_longform "PT3M0S" = true
    ∧ is_longform "PT2M59S" = false
    ∧ is_longform "not-a-duration" = false := by
  refine ⟨fun d => ?_, by decide, by decide, by decide⟩
  unfold is_longform
  cases h : parse_duration_microseconds d <;> simp [h]

/-- All items older than the cutoff means the page contributes no ids. -/
theorem qualifyingIds_eq_nil {cutoff : ℤ} {p : PlaylistPage}
    (h : ∀ it ∈ p.items, it.videoPublishedAt < cutoff) :
    qualifyingIds cutoff p = [] := by
  unfold qualifyingIds
  rw [List.filter_eq_nil.mpr, List.map_nil]
  intro it hit
  simpa using h it hit

/-- C4: `get_recent_video_ids` accumulates, in page order, the ids of
playlist items published at or after the cutoff; the loop stops the first
time a fetched page contributes zero qualifying items even when that page
carries a `nextPageToken`, and also stops when no further page token is
returned; for a multi-page sequence whose second page is entirely older
than the cutoff, only the first page's ids are returned. -/
theorem C4_pagination_early_stop :
    (∀ (cutoff : ℤ) (p : PlaylistPage) (rest : List PlaylistPage),
        qualifyingIds cutoff p ≠ [] → p.hasNextPageToken = true →
        get_recent_video_ids cutoff (p :: rest) =
          qualifyingIds cutoff p ++ get_recent_video_ids cutoff rest)
    ∧ (∀ (cutoff : ℤ) (p : PlaylistPage) (rest : List PlaylistPage),
        (∀ it ∈ p.items, it.videoPublishedAt < cutoff) →
        get_recent_video_ids cutoff (p :: rest) = [])
    ∧ (∀ (cutoff : ℤ) (p : PlaylistPage) (rest : List PlaylistPage),
        p.hasNextPageToken = false →
        get_recent_video_ids cutoff (p :: rest) = qualifyingIds cutoff p)
    ∧ (∀ (cutoff : ℤ) (p1 p2 : PlaylistPage) (rest : List PlaylistPage),
        (∀ it ∈ p2.items, it.videoPublishedAt < cutoff) →
        get_recent_video_ids cutoff (p1 :: p2 :: rest) = qualifyingIds cutoff p1) := by
  have hstop : ∀ (cutoff : ℤ) (p : PlaylistPage) (rest : List PlaylistPage),
      (∀ it ∈ p.items, it.videoPublishedAt < cutoff) →
      get_recent_video_ids cutoff (p :: rest) = [] := by
    intro cutoff p rest h
    simp [get_recent_video_ids, qualifyingIds_eq_nil h]
  refine ⟨?_, hstop, ?_, ?_⟩
  · intro cutoff p rest hq hn
    simp [get_recent_video_ids, List.isEmpty_iff, hq, hn]
  · intro cutoff p rest hn
    by_cases hq : qualifyingIds cutoff p = []
    · simp [get_recent_video_ids, hq]
    · simp [get_recent_video_ids, List.isEmpty_iff, hq, hn]
  · intro cutoff p1 p2 rest h2
    by_cases hq : qualifyingIds cutoff p1 = []
    · simp [get_recent_video_ids, hq]
    · cases hn : p1.hasNextPageToken
      · simp [get_recent_video_ids, List.isEmpty_iff, hq, hn]
      · simp [get_recent_video_ids, List.isEmpty_iff, hq, hn,
          qualifyingIds_eq_nil h2]


/-- Every upstream request the batch loop issues carries between 1 and 50
ids, the requests concatenate back to the input in order, and the returned
stats are the per-request results concatenated in order.  Proved by
induction on a bound on the list length (the loop consumes 50 ids per
iteration). -/
theorem get_video_stats_batch_spec {α : Type} (fetch : List String → List α) :
    ∀ (n : ℕ) (ids : List String), ids.length ≤ n →
      (∀ b ∈ (get_video_stats_batch fetch ids).2, b.length ≤ 50 ∧ b ≠ []) ∧
      (get_video_stats_batch fetch ids).2.flatten = ids ∧
      (get_video_stats_batch fetch ids).1 =
        ((get_video_stats_batch fetch ids).2.map fetch).flatten := by
  intro n
  induction n with
  | zero =>
    intro ids h
    have : ids = [] := List.length_eq_zero.mp (Nat.le_zero.mp h)
    subst this
    simp [get_video_stats_batch]
  | succ n ih =>
    intro ids h
    by_cases hnil : ids = []
    · subst hnil; simp [get_video_stats_batch]
    · have hlen : 0 < ids.length := List.length_pos.mpr hnil
      have hdrop : (ids.drop 50).length ≤ n := by
        simp only [List.length_drop]; omega
      obtain ⟨ih1, ih2, ih3⟩ := ih (ids.drop 50) hdrop
      rw [get_video_stats_batch, dif_neg hnil]
      dsimp only
      refine ⟨?_, ?_, ?_⟩
      · intro b hb
        rcases List.mem_cons.mp hb with hb | hb
        · subst hb
          refine ⟨by simp [List.length_take], ?_⟩
          intro htake
          rcases List.take_eq_nil_iff.mp htake with h50 | hids
          · exact absurd h50 (by omega)
          · exact hnil hids
        · exact ih1 b hb
      · rw [List.flatten_cons, ih2, List.take_append_drop]
      · rw [List.map_cons, List.flatten_cons, ih3]

/-- For 101 ids the loop issues exactly three requests, of sizes 50, 50
and 1. -/
theorem get_video_stats_batch_101 {α : Type} (fetch : List String → List α)
    (ids : List String) (h : ids.length = 101) :
    (get_video_stats_batch fetch ids).2.map List.length = [50, 50, 1] := by
  have h1 : ids ≠ [] := by intro hn; rw [hn] at h; simp at h
  have hd1 : (ids.drop 50).length = 51 := by simp [List.length_drop, h]
  have h2 : ids.drop 50 ≠ [] := by
    intro hn; rw [hn] at hd1; simp at hd1
  have hd2 : ((ids.drop 50).drop 50).length = 1 := by
    simp [List.length_drop, h]
  have h3 : (ids.drop 50).drop 50 ≠ [] := by
    intro hn; rw [hn] at hd2; simp at hd2
  have hd3 : (((ids.drop 50).drop 50).drop 50) = [] := by
    rw [← List.length_eq_zero]
    simp [List.length_drop, h]
  rw [get_video_stats_batch, dif_neg h1]
  dsimp only
  rw [get_video_stats_batch, dif_neg h2]
  dsimp only
  rw [get_video_stats_batch, dif_neg h3]
  dsimp only
  rw [hd3, get_video_stats_batch]
  simp [List.length_take, h, hd1, hd2]

/-- C6: `get_video_stats_batch` partitions its id list into consecutive
batches of at most 50, issues exactly one upstream request per batch
(the second component records each request issued, in order), and returns
the concatenation of the batch results in order; for 101 ids exactly three
upstream calls are made, of sizes 50, 50 and 1. -/
theorem C6_batching :
    (∀ (α : Type) (fetch : List String → List α) (ids : List String),
        (∀ b ∈ (get_video_stats_batch fetch ids).2, b.length ≤ 50 ∧ b ≠ []) ∧
        (get_video_stats_batch fetch ids).2.flatten = ids ∧
        (get_video_stats_batch fetch ids).1 =
          ((get_video_stats_batch fetch ids).2.map fetch).flatten)
    ∧ (∀ (α : Type) (fetch : List String → List α) (ids : List String),
        ids.length = 101 →
        (get_video_stats_batch fetch ids).2.map List.length = [50, 50, 1]) :=
  ⟨fun _ fetch ids => get_video_stats_batch_spec fetch ids.length ids le_rfl,
   fun _ fetch ids h => get_video_stats_batch_101 fetch ids h⟩

/-- C7: for any influencer whose fetched record has no channel-id field (or
an empty one — both are falsy to `if not channel_id`), the report entry is
exactly `skipped` with the handler's no-channel-id reason string
`"No YouTube Channel ID"`, and the issued-call trace shows no
video-platform operation (no playlist resolve, video listing or detail
fetch) for that influencer. -/
theorem C7_no_channel_id :
    ∀ (w : InfluencerWorld) (cutoff : ℤ) (influencerId : String),
      (w.record = .ok none ∨ w.record = .ok (some "")) →
      processInfluencer w cutoff influencerId =
        (.ok ⟨influencerId, .skipped, some "No YouTube Channel ID"⟩,
         [ApiCall.fetchInfluencer influencerId]) := by
  intro w c iid h
  rcases h with h | h <;> simp [processInfluencer, h]

/-- Witness for C7 at a concrete influencer world with an absent channel-id
field. -/
theorem C7_no_channel_id_witness :
    processInfluencer iwNoChannel 0 "inf1" =
      (.ok ⟨"inf1", .skipped, some "No YouTube Channel ID"⟩,
       [ApiCall.fetchInfluencer "inf1"]) :=
  C7_no_channel_id iwNoChannel 0 "inf1" (Or.inl rfl)

/-- C8: for every campaign whose fetched record has no linked influencers,
the endpoint responds 200 with the empty-results message, not an error, and
the issued-call trace holds only the campaign fetch: no influencer
processing and no video-platform call occurs. -/
theorem C8_no_linked_influencers :
    ∀ (req : ReqBody) (w : CampaignWorld) (cid : String),
      req.present = true → req.campaignRecordId = some cid →
      w.campaignRecord = .ok [] →
      update_engagement_for_campaign req w =
        (.noInfluencers "No linked influencers found for this campaign.",
         [ApiCall.fetchCampaign (req.campaignTableName.getD "Campaigns") cid]) := by
  intro req w cid h1 h2 h3
  simp [update_engagement_for_campaign, h1, h2, h3]

/-- Witness for C8 at a concrete empty-`Creator` campaign. -/
theorem C8_no_linked_influencers_witness :
    update_engagement_for_campaign reqC8 cwC8 =
      (.noInfluencers "No linked influencers found for this campaign.",
       [ApiCall.fetchCampaign "Campaigns" "campaignE"]) :=
  C8_no_linked_influencers reqC8 cwC8 "campaignE" rfl rfl rfl

/-- Every report entry the per-influencer step emits carries that
influencer's id. -/
theorem processInfluencer_ok_id (w : InfluencerWorld) (cutoff : ℤ) (influencerId : String) :
    ∀ (entry : ReportEntry) (t : List ApiCall),
      processInfluencer w cutoff influencerId = (.ok entry, t) →
      entry.influencerId = influencerId := by
  intro entry t h
  unfold processInfluencer at h
  dsimp only at h
  repeat' split at h
  all_goals simp_all
  all_goals rw [← h.1]

/-- When the influencer loop completes without an escaping exception, its
entries' ids are exactly the processed id list, in order. -/
theorem runInfluencers_ok_ids (w : CampaignWorld) :
    ∀ (ids : List String) (entries : List ReportEntry) (t : List ApiCall),
      runInfluencers w ids = (.ok entries, t) →
      entries.map ReportEntry.influencerId = ids := by
  intro ids
  induction ids with
  | nil =>
    intro entries t h
    simp only [runInfluencers, Prod.mk.injEq] at h
    obtain ⟨h1, -⟩ := h
    injection h1 with h1
    subst h1
    rfl
  | cons iid rest ih =>
    intro entries t h
    unfold runInfluencers at h
    cases hp : processInfluencer (w.influencers iid) w.cutoff iid with
    | mk res tr =>
      rw [hp] at h
      cases res with
      | error e => simp at h
      | ok entry =>
        cases hr : runInfluencers w rest with
        | mk res2 t2 =>
          rw [hr] at h
          cases res2 with
          | error e => simp at h
          | ok l =>
            simp only [Prod.mk.injEq] at h
            obtain ⟨h1, -⟩ := h
            injection h1 with h1
            subst h1
            simp only [List.map_cons]
            rw [processInfluencer_ok_id _ _ _ entry tr hp, ih l t2 hr]

/-- A safe influencer world (no YouTube-call exception, no zero-division
trap in the collected metrics) always yields a report entry rather than an
escaping exception. -/
theorem processInfluencer_safe_ok (w : InfluencerWorld) (cutoff : ℤ) (influencerId : String)
    (h : influencerSafe w) :
    ∃ entry t, processInfluencer w cutoff influencerId = (.ok entry, t) := by
  obtain ⟨⟨r, hr⟩, ⟨pg, hpg⟩, vs, hvs, hm⟩ := h
  unfold processInfluencer
  cases hrec : w.record with
  | error e => exact ⟨_, _, rfl⟩
  | ok ch =>
    dsimp only
    by_cases hch : ch = none ∨ ch = some ""
    · rw [if_pos hch]; exact ⟨_, _, rfl⟩
    · rw [if_neg hch, hr]
      cases r with
      | none => exact ⟨_, _, rfl⟩
      | some pl =>
        dsimp only
        rw [hpg]
        dsimp only
        by_cases hvid : (get_recent_video_ids cutoff pg).isEmpty = true
        · rw [if_pos hvid]; exact ⟨_, _, rfl⟩
        · rw [if_neg hvid]
          rw [hvs]
          dsimp only
          rcases hm with hm | ⟨hml, hmc⟩
          · rw [if_pos (by simp [hm])]; exact ⟨_, _, rfl⟩
          · by_cases hviews : (collectMetrics vs).views.isEmpty = true
            · rw [if_pos hviews]; exact ⟨_, _, rfl⟩
            · rw [if_neg hviews]
              rw [if_neg (by simp [List.isEmpty_iff, hml])]
              rw [if_neg (by simp [List.isEmpty_iff, hmc])]
              cases w.updateResult with
              | error e => exact ⟨_, _, rfl⟩
              | ok u => exact ⟨_, _, rfl⟩

/-- Over safe influencer worlds the loop completes with exactly one entry
per influencer, in order. -/
theorem runInfluencers_safe_ok (w : CampaignWorld) :
    ∀ ids : List String, (∀ iid ∈ ids, influencerSafe (w.influencers iid)) →
      ∃ entries t, runInfluencers w ids = (.ok entries, t) ∧
        entries.map ReportEntry.influencerId = ids := by
  intro ids
  induction ids with
  | nil => intro _; exact ⟨[], [], rfl, rfl⟩
  | cons iid rest ih =>
    intro h
    obtain ⟨entry, tr, hp⟩ :=
      processInfluencer_safe_ok (w.influencers iid) w.cutoff iid (h iid (by simp))
    obtain ⟨entries, t2, hr, hmap⟩ := ih (fun i hi => h i (by simp [hi]))
    refine ⟨entry :: entries, tr ++ t2, ?_, ?_⟩
    · unfold runInfluencers
      rw [hp, hr]
    · simp only [List.map_cons, hmap, processInfluencer_ok_id _ _ _ entry tr hp]

/-- C9: whenever the endpoint returns the per-influencer report, the
campaign fetch succeeded with a non-empty linked list, the results carry
exactly one entry per linked influencer id in the campaign's order, and
every entry's status is `success`, `skipped` or `failed`. -/
theorem C9_report_shape :
    ∀ (req : ReqBody) (w : CampaignWorld) (cid : String) (results : List ReportEntry),
      (update_engagement_for_campaign req w).1 = .report cid results →
      ∃ ids, w.campaignRecord = .ok ids ∧ ids ≠ [] ∧
        results.map ReportEntry.influencerId = ids ∧
        ∀ r ∈ results, r.status = .success ∨ r.status = .skipped ∨ r.status = .failed := by
  intro req w cid results h
  have hstatus : ∀ r : ReportEntry,
      r.status = .success ∨ r.status = .skipped ∨ r.status = .failed := by
    intro r; cases hs : r.status <;> simp
  unfold update_engagement_for_campaign at h
  split at h
  · simp at h
  · dsimp only at h
    cases hc : w.campaignRecord with
    | error e => rw [hc] at h; simp at h
    | ok linked =>
      rw [hc] at h
      dsimp only at h
      by_cases hemp : linked.isEmpty = true
      · rw [if_pos hemp] at h; simp at h
      · rw [if_neg hemp] at h
        cases hr : runInfluencers w linked with
        | mk res t =>
          rw [hr] at h
          cases res with
          | error e => simp at h
          | ok entries =>
            dsimp only at h
            injection h with h1 h2
            subst h2
            exact ⟨linked, rfl, by simpa [List.isEmpty_iff] using hemp,
              runInfluencers_ok_ids w linked entries t hr, fun r _ => hstatus r⟩

/-- Witness for C9 at a concrete one-influencer campaign. -/
theorem C9_report_shape_witness :
    ∃ ids, cwC9.campaignRecord = .ok ids ∧ ids ≠ [] ∧
      ([⟨"inf9", .skipped, some "No YouTube Channel ID"⟩] : List ReportEntry).map
        ReportEntry.influencerId = ids ∧
      ∀ r ∈ ([⟨"inf9", .skipped, some "No YouTube Channel ID"⟩] : List ReportEntry),
        r.status = .success ∨ r.status = .skipped ∨ r.status = .failed :=
  C9_report_shape reqC9 cwC9 "campaignD"
    [⟨"inf9", .skipped, some "No YouTube Channel ID"⟩] (by decide)

/-- C1 counterexample: a playlist-resolve failure (`get_uploads_playlist_id`
raising) is not captured as a `skipped`/`failed` entry — it escapes the
request handler as an unhandled exception, and the second linked influencer
(which would have produced a `skipped` entry) is never processed: the trace
ends at the first influencer's channels lookup. -/
theorem C1_counterexample :
    update_engagement_for_campaign reqC1 cwC1 =
      (.unhandledException "HTTPError 500 Server Error",
       [ApiCall.fetchCampaign "Campaigns" "campaignA", ApiCall.fetchInfluencer "infA",
        ApiCall.resolveUploadsPlaylist "UCchannelA"]) := by
  decide

/-- C1 amended: failures at the influencer-fetch and update steps are
captured as `failed` entries with a human-readable reason and processing
continues; and whenever every influencer's unguarded steps
(playlist-resolve, video-list, video-detail, and the average's division)
raise no exception, the loop completes with exactly one entry per
influencer.  (Exceptions from those unguarded steps escape the handler, as
the counterexample shows.) -/
theorem C1_amended :
    (∀ (w : InfluencerWorld) (cutoff : ℤ) (influencerId e : String),
        w.record = .error e →
        (processInfluencer w cutoff influencerId).1 =
          .ok ⟨influencerId, .failed, some ("Failed to fetch influencer record: " ++ e)⟩)
    ∧ (∀ (w : InfluencerWorld) (cutoff : ℤ) (influencerId ch pl e : String)
        (pages : List PlaylistPage) (videos : List VideoItem),
        w.record = .ok (some ch) → ch ≠ "" →
        w.uploadsPlaylist = .ok (some pl) →
        w.pages = .ok pages → get_recent_video_ids cutoff pages ≠ [] →
        w.videoStats = .ok videos →
        (collectMetrics videos).views ≠ [] →
        (collectMetrics videos).likes ≠ [] →
        (collectMetrics videos).comments ≠ [] →
        w.updateResult = .error e →
        (processInfluencer w cutoff influencerId).1 =
          .ok ⟨influencerId, .failed, some ("Failed to update Airtable: " ++ e)⟩)
    ∧ (∀ (w : CampaignWorld) (ids : List String),
        (∀ iid ∈ ids, influencerSafe (w.influencers iid)) →
        ∃ entries t, runInfluencers w ids = (.ok entries, t) ∧
          entries.map ReportEntry.influencerId = ids) := by
  refine ⟨?_, ?_, fun w ids h => runInfluencers_safe_ok w ids h⟩
  · intro w cutoff influencerId e h
    unfold processInfluencer
    rw [h]
  · intro w cutoff influencerId ch pl e pages videos hrec hch hpl hpg hvids hvs hv hl hc hupd
    unfold processInfluencer
    rw [hrec]
    dsimp only
    rw [if_neg (by simp [hch])]
    rw [hpl]
    dsimp only
    rw [hpg]
    dsimp only
    rw [if_neg (by simp [List.isEmpty_iff, hvids])]
    rw [hvs]
    dsimp only
    rw [if_neg (by simp [List.isEmpty_iff, hv])]
    rw [if_neg (by simp [List.isEmpty_iff, hl])]
    rw [if_neg (by simp [List.isEmpty_iff, hc])]
    rw [hupd]

/-- C2 counterexample: a request with `campaignRecordId` whose campaign
fetch succeeds can still end in an unhandled exception (here the
playlist-items listing raising) instead of a 200 report. -/
theorem C2_counterexample :
    (update_engagement_for_campaign reqC2 cwC2).1 = .unhandledException "ConnectionError" := by
  decide

/-- C2 amended: 400 when the body is missing or lacks `campaignRecordId`;
500 when the campaign fetch raises; 200 with the empty-results message when
no influencers are linked (C8); and — provided influencer processing
completes without an escaping exception — 200 with the per-influencer
report, even when every influencer failed or was skipped (concrete final
conjunct). -/
theorem C2_amended :
    (∀ (req : ReqBody) (w : CampaignWorld),
        req.present = false ∨ req.campaignRecordId = none →
        (update_engagement_for_campaign req w).1 =
          .badRequest "Missing 'campaignRecordId' in request body")
    ∧ (∀ (req : ReqBody) (w : CampaignWorld) (cid e : String),
        req.present = true → req.campaignRecordId = some cid →
        w.campaignRecord = .error e →
        (update_engagement_for_campaign req w).1 =
          .serverError ("Failed to fetch campaign record: " ++ e))
    ∧ (∀ (req : ReqBody) (w : CampaignWorld) (cid : String) (ids : List String)
        (entries : List ReportEntry) (t : List ApiCall),
        req.present = true → req.campaignRecordId = some cid →
        w.campaignRecord = .ok ids → ids ≠ [] →
        runInfluencers w ids = (.ok entries, t) →
        (update_engagement_for_campaign req w).1 = .report cid entries)
    ∧ (update_engagement_for_campaign reqC2all cwC2all).1 =
        .report "campaignC"
          [⟨"iF", .failed, some "Failed to fetch influencer record: HTTP 404"⟩,
           ⟨"iS", .skipped, some "No YouTube Channel ID"⟩] := by
  refine ⟨?_, ?_, ?_, by decide⟩
  · intro req w h
    unfold update_engagement_for_campaign
    rw [if_pos h]
  · intro req w cid e h1 h2 hc
    unfold update_engagement_for_campaign
    rw [if_neg (by simp [h1, h2])]
    dsimp only
    rw [hc]
  · intro req w cid ids entries t h1 h2 hc hne hr
    unfold update_engagement_for_campaign
    rw [if_neg (by simp [h1, h2])]
    dsimp only
    rw [hc]
    dsimp only
    rw [if_neg (by simp [List.isEmpty_iff, hne])]
    rw [hr]
    simp [h2]

/-- C10: the per-video metric loop is total (never raises): a missing
duration key, a short-form or unparseable duration, or an unparseable
count silently skips the video at the point of failure, with missing counts
defaulting to 0; since the three appends happen in sequence inside one
`try`, a mid-video parse failure (concrete final conjunct: a bad
`likeCount` after a good `viewCount`) leaves the views list longer than
the likes and comments lists, so the three averages range over different
denominators. -/
theorem C10_metric_loop :
    (∀ (acc : Metrics) (v : VideoItem), v.duration = none → collectVideo acc v = acc)
    ∧ (∀ (acc : Metrics) (v : VideoItem) (d : String), v.duration = some d →
        is_longform d = false → collectVideo acc v = acc)
    ∧ (∀ (acc : Metrics) (v : VideoItem) (d : String), v.duration = some d →
        is_longform d = true → statCount v.viewCount = none → collectVideo acc v = acc)
    ∧ (∀ (acc : Metrics) (v : VideoItem) (d : String) (vc : ℤ), v.duration = some d →
        is_longform d = true → statCount v.viewCount = some vc →
        statCount v.likeCount = none →
        collectVideo acc v = ⟨acc.views ++ [vc], acc.likes, acc.comments⟩)
    ∧ (∀ (acc : Metrics) (v : VideoItem) (d : String), v.duration = some d →
        is_longform d = true → v.viewCount = none → v.likeCount = none →
        v.commentCount = none →
        collectVideo acc v = ⟨acc.views ++ [0], acc.likes ++ [0], acc.comments ++ [0]⟩)
    ∧ collectMetrics
        [⟨some "PT4M", some "10", some "1", some "2"⟩,
         ⟨some "PT4M", some "7", some "x", some "2"⟩] = ⟨[10, 7], [1], [2]⟩ := by
  refine ⟨?_, ?_, ?_, ?_, ?_, by decide⟩
  · intro acc v h; simp [collectVideo, h]
  · intro acc v d hd hl; simp [collectVideo, hd, hl]
  · intro acc v d hd hl hv; simp [collectVideo, hd, hl, hv]
  · intro acc v d vc hd hl hv hlk; simp [collectVideo, hd, hl, hv, hlk]
  · intro acc v d hd hl hv hlk hc; simp [collectVideo, statCount, hd, hl, hv, hlk, hc]

/-- Rounding an integer value is exact. -/
theorem roundHalfEven_intCast (n : ℤ) : roundHalfEven (n : ℚ) = n := by
  unfold roundHalfEven
  dsimp only
  rw [Int.floor_intCast, sub_self, if_pos (by norm_num)]

/-- Round-half-to-even moves a value by at most 1/2. -/
theorem roundHalfEven_err (q : ℚ) : |(roundHalfEven q : ℚ) - q| ≤ 1 / 2 := by
  have h0 : (⌊q⌋ : ℚ) ≤ q := Int.floor_le q
  have h1 : q < ⌊q⌋ + 1 := Int.lt_floor_add_one q
  unfold roundHalfEven
  dsimp only
  split_ifs with h2 h3 h4 <;>
    (rw [abs_le]; constructor <;> push_cast <;> linarith)

/-- `ratLog2 a b` is the floor base-2 logarithm of `a / b`:
`2 ^ ratLog2 a b ≤ a / b < 2 ^ (ratLog2 a b + 1)`, stated multiplicatively. -/
theorem ratLog2_bounds (a b : ℕ) (ha : 0 < a) (hb : 0 < b) :
    (2 : ℚ) ^ ratLog2 a b * b ≤ a ∧ (a : ℚ) < 2 ^ (ratLog2 a b + 1) * b := by
  unfold ratLog2
  split_ifs with hba
  · have hq : a / b ≠ 0 := by
      have : 1 ≤ a / b := (Nat.le_div_iff_mul_le hb).mpr (by omega)
      omega
    have hlow : 2 ^ Nat.log 2 (a / b) ≤ a / b := Nat.pow_log_le_self 2 hq
    have hlow2 : 2 ^ Nat.log 2 (a / b) * b ≤ a :=
      le_trans (Nat.mul_le_mul_right b hlow) (Nat.div_mul_le_self a b)
    have hhigh : a / b < 2 ^ (Nat.log 2 (a / b) + 1) :=
      Nat.lt_pow_succ_log_self (by norm_num) _
    have hhigh2 : a < 2 ^ (Nat.log 2 (a / b) + 1) * b :=
      (Nat.div_lt_iff_lt_mul hb).mp hhigh
    constructor
    · rw [zpow_natCast]
      exact_mod_cast hlow2
    · rw [show ((Nat.log 2 (a / b) : ℤ) + 1) = ((Nat.log 2 (a / b) + 1 : ℕ) : ℤ) by
        push_cast; ring]
      rw [zpow_natCast]
      exact_mod_cast hhigh2
  · push_neg at hba
    set j := Nat.log 2 ((b - 1) / a) with hj
    have hq : (b - 1) / a ≠ 0 := by
      have : 1 ≤ (b - 1) / a := (Nat.le_div_iff_mul_le ha).mpr (by omega)
      omega
    have hlow : 2 ^ j ≤ (b - 1) / a := Nat.pow_log_le_self 2 hq
    have hlow2 : 2 ^ j * a ≤ b - 1 := (Nat.le_div_iff_mul_le ha).mp hlow
    have hlow3 : 2 ^ j * a < b := by omega
    have hhigh : (b - 1) / a < 2 ^ (j + 1) := Nat.lt_pow_succ_log_self (by norm_num) _
    have hhigh2 : b - 1 < 2 ^ (j + 1) * a := (Nat.div_lt_iff_lt_mul ha).mp hhigh
    have hhigh3 : b ≤ 2 ^ (j + 1) * a := by omega
    have hlow3q : (2:ℚ) ^ j * a < b := by exact_mod_cast hlow3
    have hhigh3q : (b:ℚ) ≤ 2 ^ (j + 1) * a := by exact_mod_cast hhigh3
    have hpj : (0:ℚ) < 2 ^ ((j:ℤ) + 1) := zpow_pos (by norm_num) _
    have hpj2 : (0:ℚ) < 2 ^ (j:ℤ) := zpow_pos (by norm_num) _
    constructor
    · rw [zpow_neg, inv_mul_eq_div, div_le_iff hpj]
      rw [show ((j:ℤ) + 1) = ((j + 1 : ℕ) : ℤ) by push_cast; ring, zpow_natCast]
      push_cast
      push_cast at hhigh3q
      linarith
    · rw [show -((j:ℤ) + 1) + 1 = -(j:ℤ) by ring]
      rw [zpow_neg, inv_mul_eq_div, lt_div_iff hpj2]
      rw [zpow_natCast]
      push_cast
      push_cast at hlow3q
      linarith

/-- 53-significant-bit rounding moves a positive value by at most half an
ulp, which is at most `q / 2 ^ 53` (the scaled value sits at or above
`2 ^ 52`, so the rounding error of 1/2 scales back to at most `2 ^ (e - 53)`
with `2 ^ e ≤ q`). -/
theorem roundB64pos_le_err (q : ℚ) (hq : 0 < q) :
    |roundB64pos q - q| ≤ q / 2 ^ 53 := by
  have ha : 0 < q.num.toNat := by
    have := Rat.num_pos.mpr hq
    omega
  have hb : 0 < q.den := q.pos
  obtain ⟨hlow, -⟩ := ratLog2_bounds q.num.toNat q.den ha hb
  set e := ratLog2 q.num.toNat q.den with he
  have hden : (0:ℚ) < (q.den : ℚ) := by exact_mod_cast hb
  have hnum : ((q.num.toNat : ℚ)) = (q.num : ℚ) := by
    exact_mod_cast congrArg (fun z : ℤ => (z : ℚ))
      (Int.toNat_of_nonneg (le_of_lt (Rat.num_pos.mpr hq)))
  have h2e : (2:ℚ) ^ e ≤ q := by
    rw [← Rat.num_div_den q, le_div_iff hden]
    calc (2:ℚ) ^ e * q.den ≤ (q.num.toNat : ℚ) := hlow
      _ = (q.num : ℚ) := hnum
  have herr := roundHalfEven_err (q * 2 ^ ((52:ℤ) - e))
  have h2 : (2:ℚ) ≠ 0 := by norm_num
  have hfact : roundB64pos q - q =
      ((roundHalfEven (q * 2 ^ ((52:ℤ) - e)) : ℚ) - q * 2 ^ ((52:ℤ) - e)) *
        2 ^ (e - 52) := by
    unfold roundB64pos
    rw [← he, sub_mul, mul_assoc, ← zpow_add₀ h2]
    norm_num
  rw [hfact, abs_mul]
  have hpos : (0:ℚ) < 2 ^ (e - 52) := zpow_pos (by norm_num) _
  rw [abs_of_pos hpos]
  calc |(roundHalfEven (q * 2 ^ ((52:ℤ) - e)) : ℚ) - q * 2 ^ ((52:ℤ) - e)| *
        2 ^ (e - 52)
      ≤ 1 / 2 * 2 ^ (e - 52) :=
        mul_le_mul_of_nonneg_right herr (le_of_lt hpos)
    _ = 2 ^ e * 2 ^ (-53 : ℤ) := by
        rw [← zpow_add₀ h2]
        rw [show (e + -53) = (-1) + (e - 52) by ring, zpow_add₀ h2]
        norm_num
    _ ≤ q * 2 ^ (-53 : ℤ) :=
        mul_le_mul_of_nonneg_right h2e (le_of_lt (zpow_pos (by norm_num) _))
    _ = q / 2 ^ 53 := by
        rw [zpow_neg, ← div_eq_mul_inv]
        norm_num

/-- Naturals below `2 ^ 53` (at most 53 significant bits) are exactly
representable: rounding returns them unchanged. -/
theorem roundB64pos_natCast (k : ℕ) (h0 : 0 < k) (h53 : k < 2 ^ 53) :
    roundB64pos (k : ℚ) = k := by
  unfold roundB64pos
  have hnum : ((k:ℚ)).num.toNat = k := by simp
  have hden : ((k:ℚ)).den = 1 := Rat.den_natCast k
  rw [hnum, hden]
  have hl : ratLog2 k 1 = (Nat.log 2 k : ℤ) := by
    unfold ratLog2
    rw [if_pos (by omega : 1 ≤ k), Nat.div_one]
  rw [hl]
  set m := Nat.log 2 k with hm
  have hm52 : m ≤ 52 := by
    by_contra hgt
    push_neg at hgt
    have h1 : 2 ^ 53 ≤ 2 ^ m := Nat.pow_le_pow_right (by norm_num) hgt
    have h2 : 2 ^ m ≤ k := Nat.pow_log_le_self 2 (by omega)
    omega
  rw [show (52 : ℤ) - (m:ℤ) = ((52 - m : ℕ) : ℤ) by omega, zpow_natCast]
  rw [show (k : ℚ) * 2 ^ (52 - m) = (((k * 2 ^ (52 - m) : ℕ) : ℤ) : ℚ) by push_cast; ring]
  rw [roundHalfEven_intCast]
  push_cast
  rw [mul_assoc, ← zpow_natCast (2:ℚ) (52 - m), ← zpow_add₀ (by norm_num : (2:ℚ) ≠ 0)]
  rw [show ((52 - m : ℕ) : ℤ) + ((m:ℤ) - 52) = 0 by omega]
  rw [zpow_zero, mul_one]

/-- `int(s / c)` for naturals `s < 2 ^ 53`: the correctly rounded double
quotient truncates to the floor quotient.  With `s = c * k + r`: for `r = 0`
the quotient `k < 2 ^ 53` is exact; for `r > 0` the quotient sits at least
`1 / c` inside `(k, k + 1)` while the rounding error is below `1 / c`
(because `s < 2 ^ 53`), so the rounded value stays inside `(k, k + 1)`. -/
theorem pyTrunc_roundB64_div (s c : ℕ) (hc : 0 < c) (hs : s < 2 ^ 53) :
    pyTrunc (roundB64 ((s : ℚ) / (c : ℚ))) = ((s / c : ℕ) : ℤ) := by
  rcases Nat.eq_zero_or_pos s with hs0 | hspos
  · subst hs0
    norm_num [roundB64, pyTrunc]
  · have hcq : (0:ℚ) < (c:ℚ) := by exact_mod_cast hc
    have hq : (0:ℚ) < (s:ℚ) / c := div_pos (by exact_mod_cast hspos) hcq
    rw [roundB64, if_pos hq]
    have herr := roundB64pos_le_err _ hq
    have herr2 : ((s:ℚ) / c) / 2 ^ 53 < 1 / c := by
      rw [div_div, div_lt_div_iff (by positivity) hcq]
      have hsq : (s:ℚ) < 2 ^ 53 := by exact_mod_cast hs
      calc (s:ℚ) * c < 2 ^ 53 * c := mul_lt_mul_of_pos_right hsq hcq
        _ = 1 * ((c:ℚ) * 2 ^ 53) := by ring
    set k := s / c with hk
    set r := s % c with hr
    have hsplit : s = c * k + r := (Nat.div_add_mod s c).symm
    have hsq : (s:ℚ) = (c:ℚ) * k + r := by exact_mod_cast congrArg (Nat.cast : ℕ → ℚ) hsplit
    have hqeq : (s:ℚ) / c = (k:ℚ) + (r:ℚ) / c := by
      rw [hsq]
      field_simp
      ring
    rcases Nat.eq_zero_or_pos r with hr0 | hrpos
    · have hqk : (s:ℚ) / c = (k:ℚ) := by
        rw [hqeq, hr0]
        norm_num
      rw [hqk]
      have hk0 : 0 < k := by
        rcases Nat.eq_zero_or_pos k with h0 | h
        · rw [h0] at hsplit
          simp at hsplit
          omega
        · exact h
      have hk53 : k < 2 ^ 53 := by
        have := Nat.div_le_self s c
        omega
      rw [roundB64pos_natCast k hk0 hk53]
      rw [pyTrunc, if_pos (by positivity)]
      rw [Int.floor_natCast]
    · have hrc : r < c := Nat.mod_lt s hc
      have h1c : (1:ℚ)/c ≤ (r:ℚ)/c := by
        rw [div_le_div_iff_of_pos_right hcq]  -- may need rename
        exact_mod_cast hrpos
      have h2c : (r:ℚ)/c + 1/c ≤ 1 := by
        rw [div_add_div_same, div_le_one hcq]
        have : (r:ℚ) + 1 ≤ (c:ℚ) := by exact_mod_cast hrc
        linarith
      obtain ⟨hlo, hhi⟩ := abs_le.mp herr
      have hklo : (k:ℚ) < roundB64pos ((s:ℚ)/c) := by
        have := hqeq
        nlinarith [herr2]
      have hkhi : roundB64pos ((s:ℚ)/c) < (k:ℚ) + 1 := by
        nlinarith [herr2]
      rw [pyTrunc, if_pos (by linarith [hklo, Nat.cast_nonneg (α := ℚ) k] : (0:ℚ) ≤ roundB64pos ((s:ℚ)/c))]
      have : ⌊roundB64pos ((s:ℚ)/c)⌋ = (k:ℤ) := by
        rw [Int.floor_eq_iff]
        constructor
        · push_cast
          linarith
        · push_cast
          linarith
      rw [this]

/-- `roundB64pos` on a positive natural, with its exponent spelled via
`Nat.log`. -/
theorem roundB64pos_natCast_form (k : ℕ) (hk : 0 < k) :
    roundB64pos (k : ℚ) =
      (roundHalfEven ((k:ℚ) * 2 ^ ((52:ℤ) - (Nat.log 2 k : ℤ))) : ℚ) *
        2 ^ ((Nat.log 2 k : ℤ) - 52) := by
  unfold roundB64pos
  rw [show ((k:ℚ)).num.toNat = k by simp, Rat.den_natCast]
  rw [show ratLog2 k 1 = (Nat.log 2 k : ℤ) by
    unfold ratLog2
    rw [if_pos (by omega : 1 ≤ k), Nat.div_one]]

/-- C3 amended: for every non-empty list of (nonnegative) per-metric counts
whose sum is below `2 ^ 53`, the persisted average `int(sum(xs) / len(xs))`
equals `floor(sum / count)`; in particular for views `[100, 200, 201]` the
average is `167`.  (Without the `2 ^ 53` bound the claim fails: Python's
`/` is binary64 division, see the counterexample.) -/
theorem C3_amended_floor_avg :
    (∀ l : List ℕ, l ≠ [] → l.sum < 2 ^ 53 →
      pyAvg (l.map (Nat.cast : ℕ → ℤ)) = ((l.sum / l.length : ℕ) : ℤ))
    ∧ pyAvg [100, 200, 201] = 167 := by
  have main : ∀ l : List ℕ, l ≠ [] → l.sum < 2 ^ 53 →
      pyAvg (l.map (Nat.cast : ℕ → ℤ)) = ((l.sum / l.length : ℕ) : ℤ) := by
    intro l hne hsum
    unfold pyAvg
    have hsummap : ((l.map (Nat.cast : ℕ → ℤ)).sum) = (l.sum : ℤ) := by
      rw [Nat.cast_list_sum]
    have hlen : (l.map (Nat.cast : ℕ → ℤ)).length = l.length := List.length_map _ _
    rw [hsummap, hlen]
    have hc : 0 < l.length := List.length_pos.mpr hne
    rw [Int.cast_natCast]
    exact pyTrunc_roundB64_div l.sum l.length hc hsum
  refine ⟨main, ?_⟩
  have h := main [100, 200, 201] (by simp) (by norm_num)
  norm_num at h
  convert h using 2 <;> norm_num

/-- C3 counterexample: for the single-element list `[2 ^ 53 + 1]` the
persisted average is `2 ^ 53 = 9007199254740992`, while
`floor(sum / count) = 9007199254740993 / 1 = 9007199254740993` (second
conjunct): `int(sum / len)` divides through binary64, whose rounding at
`2 ^ 53 + 1` ties down to even, so it is not integer-division semantics. -/
theorem C3_counterexample_float :
    pyAvg [9007199254740993] = 9007199254740992 ∧
    (9007199254740993 : ℤ) / 1 = 9007199254740993 := by
  refine ⟨?_, by norm_num⟩
  unfold pyAvg
  have h1 : (([(9007199254740993:ℤ)].sum : ℤ) : ℚ) / (([(9007199254740993:ℤ)].length : ℕ) : ℚ)
      = ((9007199254740993 : ℕ) : ℚ) := by
    norm_num
  rw [h1]
  have hpos : (0:ℚ) < ((9007199254740993 : ℕ) : ℚ) := by norm_num
  rw [roundB64, if_pos hpos]
  rw [roundB64pos_natCast_form 9007199254740993 (by norm_num)]
  have hlog : Nat.log 2 9007199254740993 = 53 :=
    Nat.log_eq_of_pow_le_of_lt_pow (by norm_num) (by norm_num)
  rw [hlog]
  rw [show ((52:ℤ) - (53:ℕ)) = -1 by norm_num, show (((53:ℕ):ℤ) - 52) = 1 by norm_num]
  have hval : ((9007199254740993 : ℕ) : ℚ) * 2 ^ (-1 : ℤ) = 9007199254740993 / 2 := by
    rw [zpow_neg, zpow_one, ← div_eq_mul_inv]
    norm_num
  rw [hval]
  have hfl : ⌊(9007199254740993 : ℚ) / 2⌋ = 4503599627370496 := by
    rw [Int.floor_eq_iff]
    norm_num
  unfold roundHalfEven
  dsimp only
  rw [hfl]
  rw [if_neg (by norm_num), if_neg (by norm_num), if_pos (by norm_num)]
  rw [pyTrunc, if_pos (by norm_num)]
  rw [show ((4503599627370496 : ℤ) : ℚ) * 2 ^ (1:ℤ) = ((9007199254740992 : ℤ) : ℚ) by
    norm_num]
  rw [Int.floor_intCast]
